import Mathlib

/-!
Verification development for the audio preprocessing service (src/app.py).

The service accepts an uploaded audio file, normalizes it to WAV with an
external encoder (ffmpeg), then either compresses it whole to OGG/opus or
splits it into fixed 300-second segments, compresses each segment, and
merges the compressed segments back into one file.  External tool
invocations are modelled by an environment (oracle) recording, for each
invocation site, whether the external process succeeded, exited non-zero
(`CalledProcessError` under `check=True`), or exceeded its timeout
(`TimeoutExpired`), together with the observable data it produced (captured
stdout, output file sizes).  Python exceptions are modelled as values of an
error type threaded through `Except`.
-/

/-- Outcome of one external `subprocess.run` invocation, as seen by the
caller: normal completion, non-zero exit (raises `CalledProcessError` when
`check=True` is passed), or exceeding the `timeout` argument (raises
`TimeoutExpired`). -/
inductive RunOutcome
  | ok
  | calledProcessError
  | timedOut
deriving DecidableEq

/-- The Python exceptions that can cross function boundaries in app.py:
`subprocess.CalledProcessError`, `subprocess.TimeoutExpired`, and the
`ValueError` raised by `float(...)` on a non-numeric string. -/
inductive PyExc
  | calledProcessError
  | timeoutExpired
  | valueError
deriving DecidableEq

/-- `run_ffmpeg` / a checked `subprocess.run(cmd, check=True, timeout=...)`:
turns the external outcome into either normal return or a raised
exception. -/
def runChecked : RunOutcome → Except PyExc Unit
  | .ok => .ok ()
  | .calledProcessError => .error .calledProcessError
  | .timedOut => .error .timeoutExpired

instance {ε α : Type} [DecidableEq ε] [DecidableEq α] : DecidableEq (Except ε α) :=
  fun a b =>
    match a, b with
    | .ok x, .ok y =>
      if h : x = y then isTrue (by rw [h]) else isFalse (fun c => by cases c; exact h rfl)
    | .error x, .error y =>
      if h : x = y then isTrue (by rw [h]) else isFalse (fun c => by cases c; exact h rfl)
    | .ok _, .error _ => isFalse (fun c => by cases c)
    | .error _, .ok _ => isFalse (fun c => by cases c)

/-- Whether a string starts with the path separator `/`. -/
def startsWithSlash (s : String) : Bool :=
  match s.data with
  | '/' :: _ => true
  | _ => false

/-- Whether a string ends with the path separator `/`. -/
def endsWithSlash (s : String) : Bool :=
  match s.data.getLast? with
  | some '/' => true
  | _ => false

/-- Model of `os.path.join(a, b)` (POSIX): an absolute second component
discards the first; otherwise the components are concatenated with a `/`
separator (none added when the first component is empty or already ends
with `/`).  No normalization of any kind is performed: `..` segments are
kept literally. -/
def osPathJoin (a b : String) : String :=
  if startsWithSlash b then b
  else if a = "" then a ++ b
  else if endsWithSlash a then a ++ b
  else a ++ "/" ++ b

/-- Digit characters of `n` in decimal, most significant first, as written
by `%d` formatting.  For `n < 1000` the three digits are written down
explicitly (matching the `%03d` zero padding used below); for larger `n`
the plain decimal digits are used. -/
def pad3Chars (n : Nat) : List Char :=
  if n < 1000 then
    [Nat.digitChar (n / 100), Nat.digitChar (n / 10 % 10), Nat.digitChar (n % 10)]
  else Nat.toDigits 10 n

/-- The file name `"part_%03d.wav" % i` that the ffmpeg segment muxer gives
the `i`-th segment in `split_audio`. -/
def partWavName (i : Nat) : String :=
  ⟨'p' :: 'a' :: 'r' :: 't' :: '_' :: (pad3Chars i ++ ('.' :: 'w' :: 'a' :: 'v' :: []))⟩

/-- The name of the compressed counterpart of segment `i`, obtained in the
handler by `p.replace(".wav", ".ogg")` (the names produced by the segment
pattern contain exactly one occurrence of `".wav"`, at the end). -/
def partOggName (i : Nat) : String :=
  ⟨'p' :: 'a' :: 'r' :: 't' :: '_' :: (pad3Chars i ++ ('.' :: 'o' :: 'g' :: 'g' :: []))⟩

/-- Byte-wise lexicographic `≤` on character lists: exactly the order
Python's `sorted()` uses on strings (code-point comparison, a proper prefix
sorts first). -/
def lexLe : List Char → List Char → Bool
  | [], _ => true
  | _ :: _, [] => false
  | a :: as, b :: bs =>
    if a.toNat < b.toNat then true
    else if a.toNat = b.toNat then lexLe as bs
    else false

/-- The string order used to model Python's `sorted()`. -/
def strLe (a b : String) : Prop := lexLe a.data b.data = true

instance : DecidableRel strLe := fun a b => by
  unfold strLe; infer_instance

/-- Model of Python `sorted()` on file names: insertion sort by the
code-point order.  `os.listdir` enumerates in unspecified order; since the
segment names are pairwise distinct, every correct sort of them yields the
same list, so sorting the index-ordered name list is faithful. -/
def pySorted (l : List String) : List String := List.insertionSort strLe l

/-- `split_audio(in_path, out_dir, segment_seconds)`: runs the ffmpeg
segment muxer (timeout 90, checked), then returns the `.wav` entries of the
output directory sorted by `sorted()`.  `numParts` is the number of segment
files the external tool wrote. -/
def split_audio (run : RunOutcome) (numParts : Nat) : Except PyExc (List String) :=
  match runChecked run with
  | .error e => .error e
  | .ok _ => .ok (pySorted ((List.range numParts).map partWavName))

/-- The `.wav` file list `split_audio` returns for `n` segment files. -/
def split_audio_names (n : Nat) : List String :=
  pySorted ((List.range n).map partWavName)

/-- Number of segment files the external segment muxer produces for a
source of the given duration (whole seconds) when invoked with
`-segment_time segmentSeconds`: one file per started window (model of the
external ffmpeg behaviour; at least one file is produced). -/
def segmentCount (durationSeconds segmentSeconds : Nat) : Nat :=
  max 1 ((durationSeconds + segmentSeconds - 1) / segmentSeconds)

/-- One line of the concat manifest written by `merge_ogg_files`:
`f.write(f"file '{p}'\n")` (the line's trailing newline is left
implicit). -/
def manifestLine (p : String) : String := "file \x27" ++ p ++ "\x27"

/-- Observable outcome of `merge_ogg_files(file_list, output_path)`:
the call's result, the manifest lines in the order they were written, and
whether the manifest (list) file still exists afterwards.  The code writes
the list file, runs ffmpeg concat (checked, timeout 60), and only then
removes the list file, so a raised exception skips the removal. -/
structure MergeOutcome where
  result : Except PyExc Unit
  manifestLines : List String
  listFileRemains : Bool

/-- `merge_ogg_files(file_list, output_path)` from src/app.py. -/
def merge_ogg_files (fileList : List String) (run : RunOutcome) : MergeOutcome :=
  let manifest := fileList.map manifestLine
  match runChecked run with
  | .error e => { result := .error e, manifestLines := manifest, listFileRemains := true }
  | .ok _ => { result := .ok (), manifestLines := manifest, listFileRemains := false }

/-- Value of `n.foldl` over decimal digit characters. -/
def digitsToNat (cs : List Char) : Nat :=
  cs.foldl (fun a c => a * 10 + (c.toNat - 48)) 0

/-- Model of Python `float(s)` on the plain decimal literals relevant here:
an optional sign, then digits with at most one decimal point and at least
one digit.  Returns `none` where Python raises `ValueError` (e.g. on
`"N/A"`, which ffprobe prints for an unknown duration).  Python also
accepts exponent/infinity spellings that no caller in this program
receives; those are outside the modelled fragment. -/
def parsePyFloat (s : String) : Option Rat :=
  let signed : Rat × List Char :=
    match s.data with
    | '-' :: t => (-1, t)
    | '+' :: t => (1, t)
    | t => (1, t)
  let intPart := signed.2.takeWhile Char.isDigit
  let rest := signed.2.dropWhile Char.isDigit
  match rest with
  | [] =>
    if intPart.isEmpty then none
    else some (signed.1 * (digitsToNat intPart : Rat))
  | '.' :: frac =>
    if frac.all Char.isDigit && !(intPart.isEmpty && frac.isEmpty) then
      some (signed.1 * ((digitsToNat intPart : Rat) +
        (digitsToNat frac : Rat) / ((10 : Rat) ^ frac.length)))
    else none
  | _ => none

/-- Model of Python `str.strip()`: removes leading and trailing
whitespace. -/
def pyStrip (s : String) : String :=
  ⟨((s.data.dropWhile Char.isWhitespace).reverse.dropWhile Char.isWhitespace).reverse⟩

/-- `float(probe.stdout.strip() or 0)`: an empty (stripped) capture feeds
`0` to `float`, anything else is parsed; a non-numeric string makes
`float` raise `ValueError` (`none` here). -/
def durationOfProbe (stdout : String) : Option Rat :=
  let s := pyStrip stdout
  if s = "" then some 0 else parsePyFloat s

/-- Bitrate chosen by `compress_to_ogg` from the input size:
`size_mb < 10 → "48k"`, `size_mb < 30 → "32k"`, otherwise `"24k"`.
`size_mb` is `os.path.getsize(p) / (1024*1024)` in double-precision
arithmetic; for sizes below `2^53` bytes the division by `2^20` is exact,
so the float comparisons coincide with the exact byte comparisons used
here. -/
def bitrateFor (sizeBytes : Nat) : String :=
  if sizeBytes < 10 * 1048576 then "48k"
  else if sizeBytes < 30 * 1048576 then "32k"
  else "24k"

/-- Environment for one `compress_to_ogg` call: outcome of the main ffmpeg
compression run (timeout 40), the captured ffprobe stdout (the probe is run
without `check`, so its exit status is ignored), outcomes of the two
half-file re-encodes and of the concat run inside the timeout fallback, and
the byte size of whatever output file ends up at `out_path`. -/
structure CompressEnv where
  mainRun : RunOutcome
  probeStdout : String
  half1Run : RunOutcome
  half2Run : RunOutcome
  mergeRun : RunOutcome
  outSize : Nat
deriving DecidableEq

/-- How a successful `compress_to_ogg` call produced its output: directly,
or via the internal timeout fallback that probes the duration, re-encodes
the two halves `[0, mid)` and `[mid, end)` (with `mid = duration / 2`, at
the same bitrate as the failed attempt), and concatenates them. -/
inductive CompressResult
  | direct (bitrate : String) (outSize : Nat)
  | splitFallback (bitrate : String) (midSeconds : Rat) (outSize : Nat)
deriving DecidableEq

/-- Byte size of the output artifact of a successful compression. -/
def CompressResult.size : CompressResult → Nat
  | .direct _ s => s
  | .splitFallback _ _ s => s

/-- `compress_to_ogg(in_path, out_path)` from src/app.py.  `inSize` is
`os.path.getsize(in_path)`.  Only `subprocess.TimeoutExpired` from the main
run is caught; a `CalledProcessError` propagates, as does any exception
raised inside the fallback (`ValueError` from `float`, or failures of the
half re-encodes / concat, whose temporary `.part1/.part2` files are named
from `outPath`). -/
def compress_to_ogg (inSize : Nat) (outPath : String) (env : CompressEnv) :
    Except PyExc CompressResult :=
  let bitrate := bitrateFor inSize
  match env.mainRun with
  | .ok => .ok (.direct bitrate env.outSize)
  | .calledProcessError => .error .calledProcessError
  | .timedOut =>
    match durationOfProbe env.probeStdout with
    | none => .error .valueError
    | some duration =>
      let mid := duration / 2
      match runChecked env.half1Run with
      | .error e => .error e
      | .ok _ =>
        match runChecked env.half2Run with
        | .error e => .error e
        | .ok _ =>
          match (merge_ogg_files [outPath ++ ".part1.ogg", outPath ++ ".part2.ogg"]
              env.mergeRun).result with
          | .error e => .error e
          | .ok _ => .ok (.splitFallback bitrate mid env.outSize)

/-- The four environment-derived configuration globals of app.py:
`UPLOAD_DIR` (default "uploads"), `BASE_URL`, `MAX_MB` (default 25, the
size ceiling in MB), and `AUTO_DELETE_AFTER_SEC` (default 3600, retention
before the scheduled workspace deletion). -/
structure Config where
  uploadDir : String
  baseUrl : String
  maxMb : Nat
  autoDeleteSec : Nat
deriving DecidableEq

/-- External behaviour of one `/process` request: the request's generated
`uuid4().hex` workspace id, the outcome of the WAV normalization run, the
size in bytes and the duration in whole seconds of the produced
`converted.wav`, the outcome of the segment run, the sizes of the raw
segment files, per-segment compression environments (indexed by position in
the sorted part list), the outcome of the final concat and the size of its
output, the whole-file compression environment for the single-file path,
and the wall-clock figure the handler reports (already rounded). -/
structure Env where
  uid : String
  convertRun : RunOutcome
  wavSize : Nat
  wavDuration : Nat
  splitRun : RunOutcome
  partSize : Nat → Nat
  partCompress : Nat → CompressEnv
  finalMergeRun : RunOutcome
  finalMergeSize : Nat
  wholeCompress : CompressEnv
  elapsed : Rat

/-- `round(x, 2)` applied to a byte count divided by `1024*1024`, as in
the `size_mb` response field.  Mathlib's `round` rounds exact halves up
where Python rounds them to even; the two differ only when
`bytes * 100 / 2^20` is exactly a half-integer, which no statement below
depends on. -/
def sizeMbDisplay (bytes : Nat) : Rat :=
  (round ((bytes : Rat) * 100 / 1048576) : Int) / 100

/-- `public_url_for(path)`: `BASE_URL` + "/files/" + the path of the
artifact relative to `UPLOAD_DIR` (the `os.path.relpath` of a path built
as `UPLOAD_DIR/rel` is `rel`). -/
def publicUrlFor (cfg : Config) (rel : String) : String :=
  cfg.baseUrl ++ "/files/" ++ rel

/-- The JSON body returned by a successful `/process` request.  The single
path fills `url` and `size_mb`; the split path fills `final_url` and
`parts_count`.  `ok` is `true` in both. -/
structure Response where
  ok : Bool
  mode : String
  url : Option String
  size_mb : Option Rat
  final_url : Option String
  parts_count : Option Nat
  processing_time_sec : Rat
deriving DecidableEq

/-- How the request handler terminates: a JSON response, or a raised
`HTTPException(status_code, detail)` (rendered by the framework as a
structured error response, not a process crash). -/
inductive HandlerResult
  | success (r : Response)
  | httpError (status : Nat) (detail : String)
deriving DecidableEq

/-- The `detail` string attached to the 500 error for each caught
exception.  The code formats `CalledProcessError` as
`f"ffmpeg failed: {e}"` and every other exception as `str(e)`; the
tool-specific text inside `str(e)` is abstracted to the exception name. -/
def detailOf : PyExc → String
  | .calledProcessError => "ffmpeg failed: CalledProcessError"
  | .timeoutExpired => "TimeoutExpired"
  | .valueError => "ValueError"

/-- Everything observable about one `/process` request: the handler's
result, the deletions scheduled through `delete_later` (path list and
delay), whether `split_audio` was invoked and with which
`segment_seconds`, and the output artifacts backing the URLs of a
successful response, with their byte sizes. -/
structure ProcessOutcome where
  result : HandlerResult
  scheduledDeletes : List (List String × Nat)
  splitCalled : Bool
  splitSegmentSeconds : Option Nat
  producedArtifacts : List (String × Nat)
deriving DecidableEq

/-- A `ProcessOutcome` for a request that died with a 500 before
scheduling any cleanup. -/
def erroredOutcome (e : PyExc) (splitCalled : Bool) (segSecs : Option Nat) :
    ProcessOutcome :=
  { result := .httpError 500 (detailOf e)
    scheduledDeletes := []
    splitCalled := splitCalled
    splitSegmentSeconds := segSecs
    producedArtifacts := [] }

/-- The per-segment compression loop
`for p in parts: compress_to_ogg(p, p.replace(".wav",".ogg"))`, over the
listed segment indices in order.  The first raised exception aborts the
loop (and the whole request); on success the per-segment results are
collected in order. -/
def compressParts (env : Env) (partsDir : String) :
    List Nat → Except PyExc (List CompressResult)
  | [] => .ok []
  | i :: rest =>
    match compress_to_ogg (env.partSize i) (osPathJoin partsDir (partOggName i))
        (env.partCompress i) with
    | .error e => .error e
    | .ok r =>
      match compressParts env partsDir rest with
      | .error e => .error e
      | .ok rs => .ok (r :: rs)

/-- `process_audio` (`POST /process`) from src/app.py, as a function of the
configuration and the request environment.  The upload write and
`os.makedirs` precede the `try` block and are assumed to succeed (their
failure is outside the handler's own error handling).  The float
comparison `size_mb > max_mb` with `size_mb = bytes / 2^20` is exact for
sizes below `2^53` and is rendered as the byte comparison
`wavSize > maxMb * 1048576`. -/
def process_audio (cfg : Config) (env : Env) : ProcessOutcome :=
  let work_dir := osPathJoin cfg.uploadDir env.uid
  match runChecked env.convertRun with
  | .error e => erroredOutcome e false none
  | .ok _ =>
    if env.wavSize > cfg.maxMb * 1048576 then
      -- split path: split_audio(wav_path, parts_dir, segment_seconds=300)
      let parts_dir := osPathJoin work_dir "parts"
      match runChecked env.splitRun with
      | .error e => erroredOutcome e true (some 300)
      | .ok _ =>
        let n := segmentCount env.wavDuration 300
        match compressParts env parts_dir (List.range n) with
        | .error e => erroredOutcome e true (some 300)
        | .ok _ =>
          let oggParts := (List.range n).map (fun i => osPathJoin parts_dir (partOggName i))
          match (merge_ogg_files oggParts env.finalMergeRun).result with
          | .error e => erroredOutcome e true (some 300)
          | .ok _ =>
            let final_path := osPathJoin work_dir "merged_final.ogg"
            { result := .success
                { ok := true
                  mode := "split_compressed_merged"
                  url := none
                  size_mb := none
                  final_url := some (publicUrlFor cfg (env.uid ++ "/merged_final.ogg"))
                  parts_count := some n
                  processing_time_sec := env.elapsed }
              scheduledDeletes := [([work_dir], cfg.autoDeleteSec)]
              splitCalled := true
              splitSegmentSeconds := some 300
              producedArtifacts := [(final_path, env.finalMergeSize)] }
    else
      -- single path: compress_to_ogg(wav_path, out_path)
      let out_path := osPathJoin work_dir "compressed.ogg"
      match compress_to_ogg env.wavSize out_path env.wholeCompress with
      | .error e => erroredOutcome e false none
      | .ok r =>
        { result := .success
            { ok := true
              mode := "compressed"
              url := some (publicUrlFor cfg (env.uid ++ "/compressed.ogg"))
              size_mb := some (sizeMbDisplay r.size)
              final_url := none
              parts_count := none
              processing_time_sec := env.elapsed }
          scheduledDeletes := [([work_dir], cfg.autoDeleteSec)]
          splitCalled := false
          splitSegmentSeconds := none
          producedArtifacts := [(out_path, r.size)] }

/-- Whether a handler result is a successful (`ok:true`) JSON response. -/
def resultIsOk : HandlerResult → Bool
  | .success _ => true
  | .httpError _ _ => false

/-- The `mode` field of a successful response, if any. -/
def modeOf : HandlerResult → Option String
  | .success r => some r.mode
  | .httpError _ _ => none

/-- The `parts_count` field of a successful response, if any. -/
def partsCountOf : HandlerResult → Option Nat
  | .success r => r.parts_count
  | .httpError _ _ => none

/-- What a path names on disk, for the static file route. -/
inductive FsKind
  | file
  | dir
deriving DecidableEq

/-- `GET /files/{subpath:path}` (`serve_file`) from src/app.py, over an
abstract filesystem `fs` mapping each path string to what exists there
(`none` = nothing).  The handler joins `UPLOAD_DIR` with the raw subpath,
raises `HTTPException(404)` when `os.path.exists` is false, and otherwise
returns `FileResponse(full)` — for directories as well, since
`os.path.exists` is true for them and no kind check is made. -/
def serve_file (fs : String → Option FsKind) (uploadDir subpath : String) :
    Except (Nat × String) String :=
  let full := osPathJoin uploadDir subpath
  if (fs full).isSome then .ok full
  else .error (404, "File not found")

theorem lexLe_refl : ∀ l : List Char, lexLe l l = true
  | [] => rfl
  | a :: as => by simp [lexLe, lexLe_refl as]

theorem lexLe_cons_iff {a b : Char} {as bs : List Char} :
    lexLe (a :: as) (b :: bs) = true ↔
      a.toNat < b.toNat ∨ (a.toNat = b.toNat ∧ lexLe as bs = true) := by
  simp only [lexLe]
  split_ifs with h1 h2
  · simp [h1]
  · simp [h1, h2]
  · simp [h1, h2]

theorem lexLe_total : ∀ as bs : List Char, lexLe as bs = true ∨ lexLe bs as = true
  | [], _ => Or.inl rfl
  | _ :: _, [] => Or.inr rfl
  | a :: as, b :: bs => by
    simp only [lexLe_cons_iff]
    rcases Nat.lt_trichotomy a.toNat b.toNat with h | h | h
    · exact Or.inl (Or.inl h)
    · rcases lexLe_total as bs with ih | ih
      · exact Or.inl (Or.inr ⟨h, ih⟩)
      · exact Or.inr (Or.inr ⟨h.symm, ih⟩)
    · exact Or.inr (Or.inl h)

theorem lexLe_trans : ∀ as bs cs : List Char,
    lexLe as bs = true → lexLe bs cs = true → lexLe as cs = true
  | [], _, _, _, _ => rfl
  | _ :: _, [], _, h1, _ => by simp [lexLe] at h1
  | _ :: _, _ :: _, [], _, h2 => by simp [lexLe] at h2
  | a :: as, b :: bs, c :: cs, h1, h2 => by
    rw [lexLe_cons_iff] at h1 h2 ⊢
    rcases h1 with h1 | ⟨h1e, h1r⟩ <;> rcases h2 with h2 | ⟨h2e, h2r⟩
    · exact Or.inl (Nat.lt_trans h1 h2)
    · exact Or.inl (h2e ▸ h1)
    · exact Or.inl (h1e ▸ h2)
    · exact Or.inr ⟨h1e.trans h2e, lexLe_trans as bs cs h1r h2r⟩

instance : IsTotal String strLe := ⟨fun a b => lexLe_total a.data b.data⟩

instance : IsTrans String strLe :=
  ⟨fun a b c h1 h2 => lexLe_trans a.data b.data c.data h1 h2⟩

theorem digitChar_toNat : ∀ d : Nat, d < 10 → (Nat.digitChar d).toNat = 48 + d := by decide

theorem lexLe_digits3 {x1 x2 x3 y1 y2 y3 : Nat}
    (hx1 : x1 < 10) (hx2 : x2 < 10) (hx3 : x3 < 10)
    (hy1 : y1 < 10) (hy2 : y2 < 10) (hy3 : y3 < 10) (suf : List Char) :
    (lexLe (Nat.digitChar x1 :: Nat.digitChar x2 :: Nat.digitChar x3 :: suf)
      (Nat.digitChar y1 :: Nat.digitChar y2 :: Nat.digitChar y3 :: suf) = true) ↔
      100 * x1 + 10 * x2 + x3 ≤ 100 * y1 + 10 * y2 + y3 := by
  simp only [lexLe, digitChar_toNat _ hx1, digitChar_toNat _ hx2, digitChar_toNat _ hx3,
    digitChar_toNat _ hy1, digitChar_toNat _ hy2, digitChar_toNat _ hy3, lexLe_refl]
  split_ifs <;> simp <;> omega

theorem lexLe_cons_same (c : Char) (as bs : List Char) :
    lexLe (c :: as) (c :: bs) = lexLe as bs := by
  simp [lexLe]

/-- For part indices below 1000 the `%03d` padding makes the code-point
order on segment file names coincide with the numeric index order. -/
theorem partWavName_le {a b : Nat} (ha : a < 1000) (hb : b < 1000) :
    strLe (partWavName a) (partWavName b) ↔ a ≤ b := by
  have hda : pad3Chars a =
      [Nat.digitChar (a / 100), Nat.digitChar (a / 10 % 10), Nat.digitChar (a % 10)] := by
    simp [pad3Chars, ha]
  have hdb : pad3Chars b =
      [Nat.digitChar (b / 100), Nat.digitChar (b / 10 % 10), Nat.digitChar (b % 10)] := by
    simp [pad3Chars, hb]
  show lexLe _ _ = true ↔ _
  rw [show (partWavName a).data =
      'p' :: 'a' :: 'r' :: 't' :: '_' :: (pad3Chars a ++ ('.' :: 'w' :: 'a' :: 'v' :: []))
      from rfl]
  rw [show (partWavName b).data =
      'p' :: 'a' :: 'r' :: 't' :: '_' :: (pad3Chars b ++ ('.' :: 'w' :: 'a' :: 'v' :: []))
      from rfl]
  rw [hda, hdb]
  simp only [List.cons_append, List.nil_append, lexLe_cons_same]
  rw [lexLe_digits3 (by omega) (by omega) (by omega) (by omega) (by omega) (by omega)]
  omega

/-- The index-ordered segment name list is sorted in the code-point order
whenever there are at most 1000 parts. -/
theorem sortedPartNames {n : Nat} (hn : n ≤ 1000) :
    List.Sorted strLe ((List.range n).map partWavName) := by
  rw [List.Sorted, List.pairwise_iff_getElem]
  intro i j hi hj hij
  simp only [List.length_map, List.length_range] at hi hj
  simp only [List.getElem_map, List.getElem_range]
  exact (partWavName_le (by omega) (by omega)).mpr (by omega)

/-- The default configuration of app.py (all environment variables
unset). -/
def defaultCfg : Config :=
  { uploadDir := "uploads"
    baseUrl := "https://audio-preprocess-service.onrender.com"
    maxMb := 25
    autoDeleteSec := 3600 }

/-- A compression environment where every external invocation succeeds and
the produced output file has the given size. -/
def okCompress (sz : Nat) : CompressEnv :=
  { mainRun := .ok, probeStdout := "", half1Run := .ok, half2Run := .ok
    mergeRun := .ok, outSize := sz }

/-- A compression environment whose main ffmpeg run exits non-zero. -/
def failCompress : CompressEnv :=
  { mainRun := .calledProcessError, probeStdout := "", half1Run := .ok
    half2Run := .ok, mergeRun := .ok, outSize := 0 }

/-- A compression environment whose main run times out and whose ffprobe
capture is the non-numeric `"N/A"` (what ffprobe prints when it cannot
determine a duration). -/
def probeNonNumericCompress : CompressEnv :=
  { mainRun := .timedOut, probeStdout := "N/A", half1Run := .ok
    half2Run := .ok, mergeRun := .ok, outSize := 0 }

/-- A compression environment whose main run times out and whose ffprobe
capture is empty (probe produced no output). -/
def probeEmptyCompress : CompressEnv :=
  { mainRun := .timedOut, probeStdout := "", half1Run := .ok
    half2Run := .ok, mergeRun := .ok, outSize := 3 }

/-- A compression environment whose main run times out and whose fallback
runs all succeed, with the probe reporting 600 seconds. -/
def timeoutFallbackCompress : CompressEnv :=
  { mainRun := .timedOut, probeStdout := "600.0", half1Run := .ok
    half2Run := .ok, mergeRun := .ok, outSize := 2 * 1048576 }

/-- C6 (counterexample): the claim says the merge operation removes its
intermediate manifest/list file on every outcome; in the code
`os.remove(list_path)` runs only after a successful concat, so a failing
or timed-out concat run leaves the list file behind. -/
theorem c6_counterexample :
    (merge_ogg_files ["a.ogg"] .calledProcessError).listFileRemains = true ∧
    (merge_ogg_files ["a.ogg"] .timedOut).listFileRemains = true :=
  ⟨rfl, rfl⟩

/-- C6 (amended): `merge_ogg_files` removes the manifest/list file it
writes exactly when the external concatenation run succeeds; when the run
fails or times out the raised exception skips the removal and the list
file remains. -/
theorem c6_manifest_removed_iff_success (l : List String) (run : RunOutcome) :
    (merge_ogg_files l run).listFileRemains = false ↔ run = .ok := by
  cases run <;> simp [merge_ogg_files, runChecked]

/-- C9 (counterexample): the claim says the splitter output is in
segment-index order for every segmentation; with 1001 or more parts the
`%03d` padding stops aligning the code-point order used by `sorted()` with
the numeric index order (`"part_1000.wav"` sorts before `"part_999.wav"`),
so the returned list is not the index-ordered list. -/
theorem c9_counterexample :
    ¬ (split_audio_names 1001 = (List.range 1001).map partWavName) := by
  intro h
  have hs : List.Sorted strLe (split_audio_names 1001) := by
    unfold split_audio_names pySorted
    exact List.sorted_insertionSort strLe _
  rw [h, List.Sorted, List.pairwise_iff_getElem] at hs
  have hlen : ((List.range 1001).map partWavName).length = 1001 := by simp
  have h2 := hs 999 1000 (by omega) (by omega) (by omega)
  simp only [List.getElem_map, List.getElem_range] at h2
  have h3 : lexLe (partWavName 999).data (partWavName 1000).data = false := by decide
  rw [strLe, h3] at h2
  cases h2

/-- C9 (amended): for every segmentation into at most 1000 parts the
splitter's output list is exactly the segment-index-ordered name list
(the `%03d` padding makes the `sorted()` code-point order coincide with
index order up to `part_999`), and the merge step writes its manifest
lines in the order of the list it is given, without reordering. -/
theorem c9_order_upto_1000 :
    (∀ n, n ≤ 1000 → split_audio_names n = (List.range n).map partWavName) ∧
    (∀ l run, (merge_ogg_files l run).manifestLines = l.map manifestLine) := by
  constructor
  · intro n hn
    unfold split_audio_names pySorted
    exact (sortedPartNames hn).insertionSort_eq
  · intro l run
    cases run <;> rfl

/-- C9 (witness): the amended order statement evaluated at a concrete
3-part segmentation. -/
theorem c9_order_upto_1000_witness :
    split_audio_names 3 = ["part_000.wav", "part_001.wav", "part_002.wav"] := by
  rw [c9_order_upto_1000.1 3 (by decide)]
  decide

/-- C10: `GET /files/{path}` resolves the target as the plain
`os.path.join` of the upload root and the raw subpath, with no
normalization and no containment check: it serves whenever the joined path
exists (including `..`-escaping paths and directories, which get a file
response rather than a rejection) and raises 404 exactly when the joined
path does not exist. -/
theorem c10_serve_file_plain_join :
    (∀ fs uploadDir subpath,
      (serve_file fs uploadDir subpath = .ok (osPathJoin uploadDir subpath) ↔
        (fs (osPathJoin uploadDir subpath)).isSome = true) ∧
      (serve_file fs uploadDir subpath = .error (404, "File not found") ↔
        fs (osPathJoin uploadDir subpath) = none)) ∧
    (∀ uploadDir subpath, startsWithSlash subpath = false → uploadDir ≠ "" →
      endsWithSlash uploadDir = false →
      osPathJoin uploadDir subpath = uploadDir ++ "/" ++ subpath) ∧
    (∀ fs uploadDir subpath, fs (osPathJoin uploadDir subpath) = some .dir →
      serve_file fs uploadDir subpath = .ok (osPathJoin uploadDir subpath)) := by
  refine ⟨fun fs uploadDir subpath => ?_, fun uploadDir subpath h1 h2 h3 => ?_,
    fun fs uploadDir subpath h => ?_⟩
  · by_cases h : (fs (osPathJoin uploadDir subpath)).isSome = true
    · constructor
      · simp [serve_file, h]
      · simp [serve_file, h, Option.isSome_iff_ne_none.mp h]
    · constructor
      · simp [serve_file, h]
      · simp only [Option.not_isSome_iff_eq_none] at h
        simp [serve_file, h]
  · simp [osPathJoin, h1, h2, h3]
  · simp [serve_file, h]

/-- The filesystem used in the C10 witness: a single entry, a directory
sitting outside the upload root, reachable through a `..` subpath. -/
def escapeFs : String → Option FsKind :=
  fun s => if s = "uploads/../secret" then some .dir else none

/-- C10 (witness): a subpath containing `..` that resolves outside the
upload root, naming a directory, is served. -/
theorem c10_serve_file_plain_join_witness :
    serve_file escapeFs "uploads" "../secret" = .ok "uploads/../secret" ∧
    osPathJoin "uploads" "../secret" = "uploads" ++ "/" ++ "../secret" := by
  constructor
  · have h := c10_serve_file_plain_join.2.2 escapeFs "uploads" "../secret" (by decide)
    exact h.trans (by decide)
  · exact c10_serve_file_plain_join.2.1 "uploads" "../secret" (by decide) (by decide) (by decide)


/-- Unfolding of `compress_to_ogg` when the main run times out: the
timeout handler probes the duration and, if the probe output parses,
re-encodes the two halves and concatenates them. -/
theorem compress_to_ogg_timedOut (sz : Nat) (path : String) (cenv : CompressEnv)
    (ht : cenv.mainRun = .timedOut) :
    compress_to_ogg sz path cenv =
      match durationOfProbe cenv.probeStdout with
      | none => .error .valueError
      | some duration =>
        match runChecked cenv.half1Run with
        | .error e => .error e
        | .ok _ =>
          match runChecked cenv.half2Run with
          | .error e => .error e
          | .ok _ =>
            match (merge_ogg_files [path ++ ".part1.ogg", path ++ ".part2.ogg"]
                cenv.mergeRun).result with
            | .error e => .error e
            | .ok _ => .ok (.splitFallback (bitrateFor sz) (duration / 2) cenv.outSize) := by
  unfold compress_to_ogg
  rw [ht]

/-- A successful `compress_to_ogg` call whose main run timed out can only
have produced its output through the two-half fallback, at the same
bitrate the timed-out attempt used. -/
theorem compress_timedOut_shape (sz : Nat) (path : String) (cenv : CompressEnv)
    (ht : cenv.mainRun = .timedOut) :
    ∀ r, compress_to_ogg sz path cenv = .ok r →
      ∃ m o, r = .splitFallback (bitrateFor sz) m o := by
  intro r h
  rw [compress_to_ogg_timedOut sz path cenv ht] at h
  rcases hd : durationOfProbe cenv.probeStdout with _ | d <;> rw [hd] at h
  · simp at h
  · rcases hh1 : runChecked cenv.half1Run with e | u <;> rw [hh1] at h
    · simp at h
    · rcases hh2 : runChecked cenv.half2Run with e | u <;> rw [hh2] at h
      · simp at h
      · rcases hm : (merge_ogg_files [path ++ ".part1.ogg", path ++ ".part2.ogg"]
            cenv.mergeRun).result with e | u <;> rw [hm] at h
        · simp at h
        · simp at h
          exact ⟨_, _, h.symm⟩

/-- C8 (counterexample): the claim says duration probing never propagates
an error and yields `0.0` on any failure, including non-numeric tool
output; in the code a non-numeric ffprobe capture (such as `"N/A"`)
reaches `float(...)`, which raises `ValueError`, and the exception
propagates out of `compress_to_ogg`. -/
theorem c8_counterexample :
    compress_to_ogg 1048576 "c.ogg" probeNonNumericCompress = .error .valueError := by
  decide

/-- C8 (amended): an empty (stripped) probe capture does yield duration
`0.0` without an exception, and the caller then uses `0.0` directly as the
split midpoint (`mid = duration / 2 = 0`) instead of failing or falling
back to a size-only strategy; a non-numeric capture makes `float` raise
`ValueError`, which propagates out of the probe's caller. -/
theorem c8_probe_parse_behavior :
    (∀ sz path cenv, cenv.mainRun = .timedOut → pyStrip cenv.probeStdout = "" →
      ∀ r, compress_to_ogg sz path cenv = .ok r →
        r = .splitFallback (bitrateFor sz) 0 cenv.outSize) ∧
    (∀ sz path cenv, cenv.mainRun = .timedOut →
      pyStrip cenv.probeStdout ≠ "" →
      parsePyFloat (pyStrip cenv.probeStdout) = none →
      compress_to_ogg sz path cenv = .error .valueError) := by
  constructor
  · intro sz path cenv ht hempty r h
    rw [compress_to_ogg_timedOut sz path cenv ht] at h
    have hd : durationOfProbe cenv.probeStdout = some 0 := by
      unfold durationOfProbe
      rw [if_pos hempty]
    rw [hd] at h
    rcases hh1 : runChecked cenv.half1Run with e | u <;> rw [hh1] at h
    · simp at h
    · rcases hh2 : runChecked cenv.half2Run with e | u <;> rw [hh2] at h
      · simp at h
      · rcases hm : (merge_ogg_files [path ++ ".part1.ogg", path ++ ".part2.ogg"]
            cenv.mergeRun).result with e | u <;> rw [hm] at h
        · simp at h
        · simp at h
          rw [← h]
  · intro sz path cenv ht hne hparse
    rw [compress_to_ogg_timedOut sz path cenv ht]
    have hd : durationOfProbe cenv.probeStdout = none := by
      unfold durationOfProbe
      rw [if_neg hne, hparse]
    rw [hd]

/-- C8 (witness): the amended probe behaviour at concrete inputs — an
empty capture produces the zero-midpoint fallback, a `"N/A"` capture
produces the propagated `ValueError`. -/
theorem c8_probe_parse_behavior_witness :
    compress_to_ogg 1048576 "d.ogg" probeEmptyCompress
        = .ok (.splitFallback (bitrateFor 1048576) 0 probeEmptyCompress.outSize) ∧
    compress_to_ogg 1048576 "d.ogg" probeNonNumericCompress = .error .valueError := by
  constructor
  · have h := c8_probe_parse_behavior.1 1048576 "d.ogg" probeEmptyCompress rfl (by decide)
    have hc : compress_to_ogg 1048576 "d.ogg" probeEmptyCompress
        = .ok (.splitFallback "48k" ((0 : Rat) / 2) 3) := rfl
    exact hc.trans (congrArg Except.ok (h _ hc))
  · exact c8_probe_parse_behavior.2 1048576 "d.ogg" probeNonNumericCompress rfl
      (by decide) (by decide)

/-- Request environment for a normalized WAV whose size equals the ceiling
exactly (25 MB against the default 25 MB ceiling), with all external runs
succeeding. -/
def c2Env : Env :=
  { uid := "u2", convertRun := .ok, wavSize := 25 * 1048576, wavDuration := 100
    splitRun := .ok, partSize := fun _ => 0, partCompress := fun _ => okCompress 0
    finalMergeRun := .ok, finalMergeSize := 0, wholeCompress := okCompress (3 * 1048576)
    elapsed := 1 }

/-- C2: whenever the post-normalization WAV size is at or under the
ceiling (`max_mb` converted to bytes), the handler never invokes
`split_audio` and any successful response has the single-artifact mode
`"compressed"`; in particular a size exactly equal to the ceiling takes
the single-file path, since the code splits only on the strict comparison
`size_mb > max_mb`. -/
theorem c2_small_input_single_path (cfg : Config) (env : Env)
    (h : env.wavSize ≤ cfg.maxMb * 1048576) :
    (process_audio cfg env).splitCalled = false ∧
      ∀ r, (process_audio cfg env).result = .success r → r.mode = "compressed" := by
  have hsz : ¬ env.wavSize > cfg.maxMb * 1048576 := by omega
  unfold process_audio
  rcases hc : runChecked env.convertRun with e | u <;> dsimp only
  · exact ⟨rfl, fun r hr => by cases hr⟩
  · rw [if_neg hsz]
    rcases hcomp : compress_to_ogg env.wavSize
        (osPathJoin (osPathJoin cfg.uploadDir env.uid) "compressed.ogg")
        env.wholeCompress with e | r <;> dsimp only
    · exact ⟨rfl, fun r hr => by cases hr⟩
    · exact ⟨rfl, fun r hr => by cases hr; rfl⟩

/-- C2 (witness): an input whose normalized size equals the ceiling
exactly takes the single-file path. -/
theorem c2_small_input_single_path_witness :
    (process_audio defaultCfg c2Env).splitCalled = false ∧
    modeOf (process_audio defaultCfg c2Env).result = some "compressed" :=
  ⟨(c2_small_input_single_path defaultCfg c2Env (by decide)).1, rfl⟩

/-- Request environment for the spec's end-to-end split sequence: an 80 MB
normalized WAV with a probed duration of 600 seconds against the default
25 MB ceiling, all external runs succeeding. -/
def c3Env : Env :=
  { uid := "u3", convertRun := .ok, wavSize := 80 * 1048576, wavDuration := 600
    splitRun := .ok, partSize := fun _ => 1048576, partCompress := fun _ => okCompress 1048576
    finalMergeRun := .ok, finalMergeSize := 1048576, wholeCompress := okCompress 0
    elapsed := 1 }

/-- C3 (counterexample): the claim says an 80 MB input with a 25 MB
ceiling and 600 s duration gets a duration-proportional plan with
`partCount = 4` and `segmentSeconds = 150`; the code has no planner and
always calls `split_audio` with fixed `segment_seconds = 300`, which on a
600 s source yields 2 parts, and the response reports count 2. -/
theorem c3_counterexample :
    (process_audio defaultCfg c3Env).splitSegmentSeconds = some 300 ∧
    ¬ (process_audio defaultCfg c3Env).splitSegmentSeconds = some 150 ∧
    partsCountOf (process_audio defaultCfg c3Env).result = some 2 ∧
    ¬ partsCountOf (process_audio defaultCfg c3Env).result = some 4 := by
  have h300 : (process_audio defaultCfg c3Env).splitSegmentSeconds = some 300 := rfl
  have hcnt : partsCountOf (process_audio defaultCfg c3Env).result = some 2 := rfl
  refine ⟨h300, fun hcon => ?_, hcnt, fun hcon => ?_⟩
  · rw [h300] at hcon
    exact absurd hcon (by decide)
  · rw [hcnt] at hcon
    exact absurd hcon (by decide)

/-- C3 (amended): when the normalized input exceeds the ceiling, the code
splits with the fixed 300-second window regardless of the probed size or
duration; the number of parts is whatever the segment muxer produces for
that window (`ceil(duration / 300)`, at least 1), and a successful
response reports exactly that count. -/
theorem c3_fixed_window_plan (cfg : Config) (env : Env)
    (hconv : env.convertRun = .ok)
    (hsz : env.wavSize > cfg.maxMb * 1048576) :
    (process_audio cfg env).splitCalled = true ∧
    (process_audio cfg env).splitSegmentSeconds = some 300 ∧
    ∀ r, (process_audio cfg env).result = .success r →
      r.parts_count = some (segmentCount env.wavDuration 300) := by
  unfold process_audio
  rcases hc : runChecked env.convertRun with e | u <;> dsimp only
  · rw [hconv] at hc
    exact absurd hc (by simp [runChecked])
  rw [if_pos hsz]
  rcases hs : runChecked env.splitRun with e | u2 <;> dsimp only
  · exact ⟨rfl, rfl, fun r hr => by cases hr⟩
  · rcases hcp : compressParts env (osPathJoin (osPathJoin cfg.uploadDir env.uid) "parts")
        (List.range (segmentCount env.wavDuration 300)) with e | rs <;> dsimp only
    · exact ⟨rfl, rfl, fun r hr => by cases hr⟩
    · rcases hm : (merge_ogg_files ((List.range (segmentCount env.wavDuration 300)).map
          (fun i => osPathJoin (osPathJoin (osPathJoin cfg.uploadDir env.uid) "parts")
            (partOggName i))) env.finalMergeRun).result with e | u2 <;> dsimp only
      · exact ⟨rfl, rfl, fun r hr => by cases hr⟩
      · exact ⟨rfl, rfl, fun r hr => by cases hr; rfl⟩

/-- C3 (witness): the fixed-window behaviour at the 80 MB / 600 s input:
the window is 300 s and the reported count is `ceil(600/300) = 2`. -/
theorem c3_fixed_window_plan_witness :
    (process_audio defaultCfg c3Env).splitCalled = true ∧
    (process_audio defaultCfg c3Env).splitSegmentSeconds = some 300 ∧
    partsCountOf (process_audio defaultCfg c3Env).result = some (segmentCount 600 300) := by
  have h := c3_fixed_window_plan defaultCfg c3Env rfl (by decide)
  exact ⟨h.1, h.2.1, rfl⟩

/-- Request environment whose WAV normalization run exits non-zero, making
the handler raise before any cleanup is scheduled. -/
def c4Env : Env :=
  { uid := "u4", convertRun := .calledProcessError, wavSize := 1048576, wavDuration := 10
    splitRun := .ok, partSize := fun _ => 0, partCompress := fun _ => okCompress 0
    finalMergeRun := .ok, finalMergeSize := 0, wholeCompress := okCompress 0
    elapsed := 1 }

/-- C4 (counterexample): the claim says workspace cleanup is scheduled on
every path, with a shorter grace delay on failure; in the code
`delete_later` is called only on the two success returns inside the `try`
block, so a failing request (here: the normalization run exits non-zero)
raises `HTTPException(500)` with no deletion scheduled at all — and no
shorter failure delay exists anywhere in the code. -/
theorem c4_counterexample :
    (process_audio defaultCfg c4Env).scheduledDeletes = [] ∧
    (process_audio defaultCfg c4Env).result = .httpError 500 (detailOf .calledProcessError) :=
  ⟨rfl, rfl⟩

/-- C4 (amended): workspace cleanup is scheduled exactly on the success
paths, always with the success-path retention delay
(`AUTO_DELETE_AFTER_SEC`); on every failure path no cleanup is
scheduled. -/
theorem c4_cleanup_only_on_success (cfg : Config) (env : Env) :
    (process_audio cfg env).scheduledDeletes =
      if resultIsOk (process_audio cfg env).result = true
      then [([osPathJoin cfg.uploadDir env.uid], cfg.autoDeleteSec)]
      else [] := by
  unfold process_audio
  rcases hc : runChecked env.convertRun with e | u <;> dsimp only
  · rfl
  · by_cases hsz : env.wavSize > cfg.maxMb * 1048576
    · rw [if_pos hsz]
      rcases hs : runChecked env.splitRun with e | u2 <;> dsimp only
      · rfl
      · rcases hcp : compressParts env (osPathJoin (osPathJoin cfg.uploadDir env.uid) "parts")
            (List.range (segmentCount env.wavDuration 300)) with e | rs <;> dsimp only
        · rfl
        · rcases hm : (merge_ogg_files ((List.range (segmentCount env.wavDuration 300)).map
              (fun i => osPathJoin (osPathJoin (osPathJoin cfg.uploadDir env.uid) "parts")
                (partOggName i))) env.finalMergeRun).result with e | u3 <;> dsimp only
          · rfl
          · rfl
    · rw [if_neg hsz]
      rcases hcomp : compress_to_ogg env.wavSize
          (osPathJoin (osPathJoin cfg.uploadDir env.uid) "compressed.ogg")
          env.wholeCompress with e | r <;> dsimp only
      · rfl
      · rfl

/-- Family of split-path request environments identical except for the
byte size the external concat run leaves in `merged_final.ogg`. -/
def c1EnvWith (msize : Nat) : Env :=
  { uid := "u1", convertRun := .ok, wavSize := 80 * 1048576, wavDuration := 600
    splitRun := .ok, partSize := fun _ => 1048576, partCompress := fun _ => okCompress 1048576
    finalMergeRun := .ok, finalMergeSize := msize, wholeCompress := okCompress 0
    elapsed := 1 }

/-- C1 (counterexample): the claim says every artifact reachable from a
successful result is at or under the ceiling, or the response explicitly
reports a degraded/fallback mode.  In the split path the handler never
compares any output size to the ceiling and the response carries no size
or degraded-mode field at all: a run whose merged output is 26 MB (over
the 25 MB ceiling) succeeds with `ok:true` and a response identical to
that of a compliant 25 MB run — the ceiling is exceeded silently. -/
theorem c1_counterexample :
    (process_audio defaultCfg (c1EnvWith (26 * 1048576))).result
        = (process_audio defaultCfg (c1EnvWith (25 * 1048576))).result ∧
    resultIsOk (process_audio defaultCfg (c1EnvWith (26 * 1048576))).result = true ∧
    (process_audio defaultCfg (c1EnvWith (26 * 1048576))).producedArtifacts
        = [("uploads/u1/merged_final.ogg", 26 * 1048576)] ∧
    26 * 1048576 > defaultCfg.maxMb * 1048576 :=
  ⟨rfl, rfl, rfl, by decide⟩

/-- C1 (amended): a successful response's mode records only whether the
normalized WAV exceeded the ceiling (`"split_compressed_merged"` exactly
when it did, `"compressed"` otherwise); no output artifact size is ever
compared to the ceiling, and the split-path response carries no size
field, so output artifacts may exceed the ceiling without any
degraded/fallback signal. -/
theorem c1_mode_signals_only_input_size (cfg : Config) (env : Env) :
    modeOf (process_audio cfg env).result = some "split_compressed_merged" ↔
      (resultIsOk (process_audio cfg env).result = true ∧
        env.wavSize > cfg.maxMb * 1048576) := by
  unfold process_audio
  rcases hc : runChecked env.convertRun with e | u <;> dsimp only
  · simp [erroredOutcome, modeOf, resultIsOk]
  · by_cases hsz : env.wavSize > cfg.maxMb * 1048576
    · rw [if_pos hsz]
      rcases hs : runChecked env.splitRun with e | u2 <;> dsimp only
      · simp [erroredOutcome, modeOf, resultIsOk]
      · rcases hcp : compressParts env (osPathJoin (osPathJoin cfg.uploadDir env.uid) "parts")
            (List.range (segmentCount env.wavDuration 300)) with e | rs <;> dsimp only
        · simp [erroredOutcome, modeOf, resultIsOk]
        · rcases hm : (merge_ogg_files ((List.range (segmentCount env.wavDuration 300)).map
              (fun i => osPathJoin (osPathJoin (osPathJoin cfg.uploadDir env.uid) "parts")
                (partOggName i))) env.finalMergeRun).result with e | u3 <;> dsimp only
          · simp [erroredOutcome, modeOf, resultIsOk]
          · simp [modeOf, resultIsOk, hsz]
    · rw [if_neg hsz]
      rcases hcomp : compress_to_ogg env.wavSize
          (osPathJoin (osPathJoin cfg.uploadDir env.uid) "compressed.ogg")
          env.wholeCompress with e | r <;> dsimp only
      · simp [erroredOutcome, modeOf, resultIsOk]
      · simp [modeOf, resultIsOk, hsz]

/-- If any listed segment's compression raises, the whole per-segment loop
raises (the first raised exception aborts it). -/
theorem compressParts_error_of_mem (env : Env) (pd : String) :
    ∀ l : List Nat, ∀ i ∈ l,
      (∃ e, compress_to_ogg (env.partSize i) (osPathJoin pd (partOggName i))
        (env.partCompress i) = .error e) →
      ∃ e, compressParts env pd l = .error e := by
  intro l
  induction l with
  | nil => intro i h; cases h
  | cons j rest ih =>
    intro i hmem he
    rcases List.mem_cons.mp hmem with rfl | hmem2
    · obtain ⟨e, he2⟩ := he
      exact ⟨e, by unfold compressParts; rw [he2]⟩
    · rcases hj : compress_to_ogg (env.partSize j) (osPathJoin pd (partOggName j))
          (env.partCompress j) with e2 | r
      · exact ⟨e2, by unfold compressParts; rw [hj]⟩
      · obtain ⟨e3, he3⟩ := ih i hmem2 he
        exact ⟨e3, by unfold compressParts; rw [hj, he3]⟩

/-- Split-path request environment in which the first segment's
compression run exits non-zero while the second segment's would
succeed. -/
def c5Env : Env :=
  { uid := "u5", convertRun := .ok, wavSize := 80 * 1048576, wavDuration := 600
    splitRun := .ok, partSize := fun _ => 1048576
    partCompress := fun i => if i = 0 then failCompress else okCompress 1048576
    finalMergeRun := .ok, finalMergeSize := 1048576, wholeCompress := okCompress 0
    elapsed := 1 }

/-- C5 (counterexample): the claim says a per-segment tool failure is
caught locally and does not abort the batch, the failing segment being
retried at a lower bitrate or substituted by its original.  In the code a
`CalledProcessError` from a segment's compression propagates out of the
`for` loop: with 2 segments whose first compression run exits non-zero,
the whole request aborts with HTTP 500 and no result is produced. -/
theorem c5_counterexample :
    (process_audio defaultCfg c5Env).result
        = .httpError 500 (detailOf .calledProcessError) ∧
    resultIsOk (process_audio defaultCfg c5Env).result = false :=
  ⟨rfl, rfl⟩

/-- C5 (amended): only a per-segment timeout is caught locally — inside
`compress_to_ogg`, which then re-encodes that segment in two halves at the
same (not a lower) bitrate and concatenates them; a per-segment tool error
(non-zero exit), or any failure inside that fallback, propagates and
aborts the whole batch, surfacing as an HTTP 500 with no result. -/
theorem c5_segment_failure_behavior :
    (∀ sz path cenv, cenv.mainRun = .calledProcessError →
      compress_to_ogg sz path cenv = .error .calledProcessError) ∧
    (∀ sz path cenv, cenv.mainRun = .timedOut →
      ∀ r, compress_to_ogg sz path cenv = .ok r →
        ∃ m o, r = .splitFallback (bitrateFor sz) m o) ∧
    (∀ cfg env, env.convertRun = .ok → env.wavSize > cfg.maxMb * 1048576 →
      env.splitRun = .ok →
      (∃ i, i < segmentCount env.wavDuration 300 ∧
        ∃ e, compress_to_ogg (env.partSize i)
          (osPathJoin (osPathJoin (osPathJoin cfg.uploadDir env.uid) "parts") (partOggName i))
          (env.partCompress i) = .error e) →
      resultIsOk (process_audio cfg env).result = false) := by
  refine ⟨fun sz path cenv hm => ?_, fun sz path cenv ht => compress_timedOut_shape sz path cenv ht,
    fun cfg env hconv hsz hsplit hex => ?_⟩
  · unfold compress_to_ogg
    rw [hm]
  · obtain ⟨i, hi, he⟩ := hex
    obtain ⟨e, hpe⟩ := compressParts_error_of_mem env
      (osPathJoin (osPathJoin cfg.uploadDir env.uid) "parts")
      (List.range (segmentCount env.wavDuration 300)) i (List.mem_range.mpr hi) he
    unfold process_audio
    rcases hc : runChecked env.convertRun with e2 | u <;> dsimp only
    · rfl
    · rw [if_pos hsz]
      rcases hs : runChecked env.splitRun with e3 | u2 <;> dsimp only
      · rfl
      · rw [hpe]
        rfl

/-- C5 (witness): the amended behaviour at concrete inputs — a non-zero
exit propagates out of `compress_to_ogg`, and the request with a failing
first segment produces no successful result. -/
theorem c5_segment_failure_behavior_witness :
    compress_to_ogg 1048576 "w.ogg" failCompress = .error .calledProcessError ∧
    resultIsOk (process_audio defaultCfg c5Env).result = false := by
  constructor
  · exact c5_segment_failure_behavior.1 1048576 "w.ogg" failCompress rfl
  · exact c5_segment_failure_behavior.2.2 defaultCfg c5Env rfl (by decide) rfl
      ⟨0, by decide, .calledProcessError, rfl⟩

/-- Single-path request environment whose whole-file compression run times
out and whose internal two-half fallback succeeds. -/
def c7Env : Env :=
  { uid := "u7", convertRun := .ok, wavSize := 20 * 1048576, wavDuration := 600
    splitRun := .ok, partSize := fun _ => 0, partCompress := fun _ => okCompress 0
    finalMergeRun := .ok, finalMergeSize := 0, wholeCompress := timeoutFallbackCompress
    elapsed := 1 }

/-- C7: when the whole-file compression run exceeds its timeout budget the
request still terminates in a defined way: the `TimeoutExpired` is caught
inside `compress_to_ogg`, which falls through to its split path (probe the
duration, re-encode the two halves, concatenate), and the handler either
returns a successful response built from that fallback or — if the
fallback itself raises — a structured `HTTPException(500)` response; it
never ends in an unhandled process crash.  (The `ok:false` +
`fallback_url` shape from the claim's first disjunct does not occur; the
code takes the claim's second disjunct, the split fallback.) -/
theorem c7_timeout_defined_behavior (cfg : Config) (env : Env)
    (hconv : env.convertRun = .ok)
    (hsz : ¬ env.wavSize > cfg.maxMb * 1048576)
    (ht : env.wholeCompress.mainRun = .timedOut) :
    (∃ r m o, compress_to_ogg env.wavSize
        (osPathJoin (osPathJoin cfg.uploadDir env.uid) "compressed.ogg") env.wholeCompress
          = .ok (.splitFallback (bitrateFor env.wavSize) m o) ∧
      (process_audio cfg env).result = .success r ∧ r.ok = true) ∨
    (∃ d, (process_audio cfg env).result = .httpError 500 d) := by
  unfold process_audio
  rcases hc : runChecked env.convertRun with e | u <;> dsimp only
  · rw [hconv] at hc
    exact absurd hc (by simp [runChecked])
  rw [if_neg hsz]
  rcases hcomp : compress_to_ogg env.wavSize
      (osPathJoin (osPathJoin cfg.uploadDir env.uid) "compressed.ogg")
      env.wholeCompress with e | r <;> dsimp only
  · exact Or.inr ⟨detailOf e, rfl⟩
  · obtain ⟨m, o, rfl⟩ := compress_timedOut_shape env.wavSize
      (osPathJoin (osPathJoin cfg.uploadDir env.uid) "compressed.ogg")
      env.wholeCompress ht r hcomp
    exact Or.inl ⟨_, m, o, rfl, rfl, rfl⟩

/-- C7 (witness): the behaviour at a concrete 20 MB input whose whole-file
compression times out and whose fallback succeeds. -/
theorem c7_timeout_defined_behavior_witness :
    (∃ r m o, compress_to_ogg c7Env.wavSize
        (osPathJoin (osPathJoin defaultCfg.uploadDir c7Env.uid) "compressed.ogg")
        c7Env.wholeCompress
          = .ok (.splitFallback (bitrateFor c7Env.wavSize) m o) ∧
      (process_audio defaultCfg c7Env).result = .success r ∧ r.ok = true) ∨
    (∃ d, (process_audio defaultCfg c7Env).result = .httpError 500 d) :=
  c7_timeout_defined_behavior defaultCfg c7Env rfl (by decide) rfl
